import Mathlib

/-!
Verification of the TonPay402 off-chain coordinator against its design
specification.  The definitions below are a shallow embedding of the
TypeScript sources:

* the broker (envelope ledger) from `src/mcp-server/bot.ts` (the broker
  section: `normalizeWindow`, `createEnvelope`, `assignAgentToEnvelope`,
  `getEnvelopeAllowance`, `reserveEnvelopeBudget`,
  `rollbackEnvelopeReservation`);
* the `execute_envelope_payment` handler from `src/mcp-server/index.ts`;
* the facilitator client `requestFacilitatorDecision` (the retrying
  variant, whose configuration matches the caller in `index.ts`);
* the Telegram approval bot state machine from `src/mcp-server/bot.ts`
  (`setRecordStatus`, `claimMatchingRequestId`, `updateRequestAuditStatus`,
  `parseApprovalFromTransaction`, `notifyApprovalRequest`, the poll loop
  and the `approve` callback handler).

JavaScript `bigint` amounts are modelled as `Int`; `number` timestamps as
`Int` seconds.  Mutable maps (`Map`, plain objects) are modelled as
association lists with `alookup` / `aset`; a thrown exception is modelled
by returning the (possibly partially mutated) state together with
`Except.error message`, mirroring the fact that the TypeScript code
mutates state in place before it throws.
-/

namespace TonPay

/-- Association-list lookup, mirroring `Map.get` / object property read. -/
def alookup {α : Type} : List (String × α) → String → Option α
  | [], _ => none
  | (k', v) :: rest, k => if k' = k then some v else alookup rest k

/-- Association-list update, mirroring `Map.set` / object property write. -/
def aset {α : Type} : List (String × α) → String → α → List (String × α)
  | [], k, v => [(k, v)]
  | (k', v') :: rest, k, v =>
    if k' = k then (k, v) :: rest else (k', v') :: aset rest k v

/-- Association-list removal, mirroring `Map.delete`. -/
def aerase {α : Type} : List (String × α) → String → List (String × α)
  | [], _ => []
  | (k', v) :: rest, k => if k' = k then rest else (k', v) :: aerase rest k

/-- JavaScript `String.prototype.trim()`, computed on the character list
(the library `String.trim` does not reduce inside the kernel). -/
def strTrim (s : String) : String :=
  ⟨((s.data.dropWhile Char.isWhitespace).reverse.dropWhile Char.isWhitespace).reverse⟩

/-- `EnvelopeRecord` from the broker section of `bot.ts`.  The stringly
stored `totalBudgetNano` / `spentInWindowNano` bigints are `Int`; the
`createdAt` display string is kept abstract as the textual `now`. -/
structure EnvelopeRecord where
  id : String
  totalBudgetNano : Int
  spentInWindowNano : Int
  periodSeconds : Int
  windowStartedAt : Int
  createdAt : String
  agentIds : List String
deriving Repr, DecidableEq

/-- `BrokerState.envelopes`: the envelope dictionary. -/
abbrev BrokerState := List (String × EnvelopeRecord)

/-- `normalizeWindow` from `bot.ts`: lazily reset the spending window when
`currentNow >= windowStartedAt + periodSeconds`. -/
def normalizeWindow (envelope : EnvelopeRecord) (currentNow : Int) : EnvelopeRecord :=
  if envelope.windowStartedAt + envelope.periodSeconds ≤ currentNow then
    { envelope with windowStartedAt := currentNow, spentInWindowNano := 0 }
  else
    envelope

/-- `createEnvelope` from `bot.ts`.  Errors are returned together with the
state they leave behind. -/
def createEnvelope (state : BrokerState) (envelopeId : String)
    (totalBudgetNano : Int) (periodSeconds : Int) (now : Int) :
    BrokerState × Except String EnvelopeRecord :=
  if strTrim envelopeId = "" then
    (state, .error "envelopeId is required")
  else if totalBudgetNano ≤ 0 then
    (state, .error "totalBudgetNano must be greater than 0")
  else if periodSeconds ≤ 0 then
    (state, .error "periodSeconds must be greater than 0")
  else
    match alookup state envelopeId with
    | some _ => (state, .error ("Envelope " ++ envelopeId ++ " already exists"))
    | none =>
      let envelope : EnvelopeRecord :=
        { id := envelopeId
          totalBudgetNano := totalBudgetNano
          spentInWindowNano := 0
          periodSeconds := periodSeconds
          windowStartedAt := now
          createdAt := toString now
          agentIds := [] }
      (aset state envelopeId envelope, .ok envelope)

/-- `assignAgentToEnvelope` from `bot.ts`: idempotent agent assignment. -/
def assignAgentToEnvelope (state : BrokerState) (envelopeId agentId : String) :
    BrokerState × Except String EnvelopeRecord :=
  match alookup state envelopeId with
  | none => (state, .error ("Envelope " ++ envelopeId ++ " not found"))
  | some envelope =>
    if strTrim agentId = "" then
      (state, .error "agentId is required")
    else if agentId ∈ envelope.agentIds then
      (state, .ok envelope)
    else
      let updated := { envelope with agentIds := envelope.agentIds ++ [agentId] }
      (aset state envelopeId updated, .ok updated)

/-- `getEnvelopeAllowance` from `bot.ts`: applies the lazy window reset,
persists the normalized envelope, returns it and the remaining budget. -/
def getEnvelopeAllowance (state : BrokerState) (envelopeId : String) (now : Int) :
    BrokerState × Except String (EnvelopeRecord × Int) :=
  match alookup state envelopeId with
  | none => (state, .error ("Envelope " ++ envelopeId ++ " not found"))
  | some existing =>
    let normalized := normalizeWindow existing now
    (aset state envelopeId normalized,
      .ok (normalized, normalized.totalBudgetNano - normalized.spentInWindowNano))

/-- `reserveEnvelopeBudget` from `bot.ts`.  Note that the allowance read
(and hence the lazy window reset) is persisted before the agent and budget
checks, exactly as in the source, so a failing reserve can still leave the
normalized envelope behind. -/
def reserveEnvelopeBudget (state : BrokerState) (envelopeId agentId : String)
    (amountNano : Int) (now : Int) :
    BrokerState × Except String (EnvelopeRecord × Int) :=
  if amountNano ≤ 0 then
    (state, .error "amountNano must be greater than 0")
  else
    match getEnvelopeAllowance state envelopeId now with
    | (state1, .error e) => (state1, .error e)
    | (state1, .ok (envelope, remainingNano)) =>
      if agentId ∈ envelope.agentIds then
        if remainingNano < amountNano then
          (state1, .error ("Envelope limit exceeded for " ++ envelopeId ++
            ": remaining " ++ toString remainingNano ++ " nano, requested " ++
            toString amountNano ++ " nano"))
        else
          let nextSpent := envelope.spentInWindowNano + amountNano
          let updated := { envelope with spentInWindowNano := nextSpent }
          (aset state1 envelopeId updated,
            .ok (updated, updated.totalBudgetNano - nextSpent))
      else
        (state1, .error ("Agent " ++ agentId ++ " is not assigned to envelope " ++ envelopeId))

/-- `rollbackEnvelopeReservation` from `bot.ts`. -/
def rollbackEnvelopeReservation (state : BrokerState) (envelopeId : String)
    (amountNano : Int) : BrokerState × Except String EnvelopeRecord :=
  if amountNano ≤ 0 then
    (state, .error "amountNano must be greater than 0")
  else
    match alookup state envelopeId with
    | none => (state, .error ("Envelope " ++ envelopeId ++ " not found"))
    | some envelope =>
      let nextSpent := envelope.spentInWindowNano - amountNano
      if nextSpent < 0 then
        (state, .error ("Cannot rollback " ++ toString amountNano ++
          " nano from envelope " ++ envelopeId ++ " with spent " ++
          toString envelope.spentInWindowNano ++ " nano"))
      else
        let updated := { envelope with spentInWindowNano := nextSpent }
        (aset state envelopeId updated, .ok updated)

/-- The `execute_envelope_payment` tool handler from `index.ts`, with the
chain submission abstracted as its outcome (`Except`).  The handler
reserves first, then submits; the `catch` rolls the reservation back and
re-raises the submission error.  The success branch performs the
allowance re-read inside the same `try`, at a possibly later time. -/
def executeEnvelopePayment (state : BrokerState) (envelopeId agentId : String)
    (amountNano : Int) (now : Int) (submission : Except String Unit) (now2 : Int) :
    BrokerState × Except String Int :=
  match reserveEnvelopeBudget state envelopeId agentId amountNano now with
  | (state1, .error e) => (state1, .error e)
  | (state1, .ok _) =>
    match submission with
    | .ok _ =>
      match getEnvelopeAllowance state1 envelopeId now2 with
      | (state2, .ok (_, remainingNano)) => (state2, .ok remainingNano)
      | (state2, .error e) =>
        match rollbackEnvelopeReservation state2 envelopeId amountNano with
        | (state3, .error e2) => (state3, .error e2)
        | (state3, .ok _) => (state3, .error e)
    | .error submitError =>
      match rollbackEnvelopeReservation state1 envelopeId amountNano with
      | (state3, .error e2) => (state3, .error e2)
      | (state3, .ok _) => (state3, .error submitError)

/-- The envelope bookkeeping invariant from the data model: spending in
the current window stays between `0` and the total budget. -/
def EnvInv (e : EnvelopeRecord) : Prop :=
  0 ≤ e.spentInWindowNano ∧ e.spentInWindowNano ≤ e.totalBudgetNano

/-- All stored envelopes satisfy `EnvInv`. -/
def StateInv (st : BrokerState) : Prop :=
  ∀ k e, alookup st k = some e → EnvInv e

/-- One operation of the envelope ledger API. -/
inductive BrokerOp where
  | create (envelopeId : String) (totalBudgetNano periodSeconds now : Int)
  | assign (envelopeId agentId : String)
  | allowance (envelopeId : String) (now : Int)
  | reserve (envelopeId agentId : String) (amountNano now : Int)
  | rollback (envelopeId : String) (amountNano : Int)

/-- Run one ledger operation, keeping the resulting state (errors leave
whatever state the operation produced before throwing). -/
def applyOp (st : BrokerState) : BrokerOp → BrokerState
  | .create envelopeId total period now => (createEnvelope st envelopeId total period now).1
  | .assign envelopeId agentId => (assignAgentToEnvelope st envelopeId agentId).1
  | .allowance envelopeId now => (getEnvelopeAllowance st envelopeId now).1
  | .reserve envelopeId agentId amount now => (reserveEnvelopeBudget st envelopeId agentId amount now).1
  | .rollback envelopeId amount => (rollbackEnvelopeReservation st envelopeId amount).1

/-- Run a sequence of ledger operations from a starting state. -/
def applyOps (st : BrokerState) (ops : List BrokerOp) : BrokerState :=
  ops.foldl applyOp st

/-! ## Facilitator client

Shallow embedding of `requestFacilitatorDecision` (the retrying variant,
whose config carries `retryAttempts` / `retryBackoffMs` exactly as the
caller in `index.ts` supplies them).  One HTTP attempt is abstracted as an
`AttemptOutcome`: either a successful (HTTP-ok, JSON-parsed) body, or a
failure message covering network errors, timeouts, non-2xx statuses and
JSON parse errors — every path the `catch` block sees uniformly. -/

/-- A dynamically typed JSON field of the facilitator response body:
absent, a string, a boolean, or a value of any other type. -/
inductive JField where
  | absent
  | jstr (s : String)
  | jbool (b : Bool)
  | jother
deriving Repr, DecidableEq

/-- The parsed facilitator response body (`parseFacilitatorJson` result);
a non-object body parses to all-absent fields. -/
structure FacilitatorBody where
  accepted : JField := .absent
  reason : JField := .absent
  targetAddress : JField := .absent
  amountInTon : JField := .absent
  reference : JField := .absent
  note : JField := .absent
deriving Repr, DecidableEq

/-- `FacilitatorDecision` from the source. -/
structure FacilitatorDecision where
  targetAddress : String
  amountInTon : String
  reference : Option String
  note : Option String
deriving Repr, DecidableEq

/-- `FacilitatorRequestInput` from the source (the opaque context is
irrelevant to the decision parsing and omitted). -/
structure FacilitatorRequestInput where
  requestId : String
  contractAddress : String
  targetAddress : String
  amountInTon : String
deriving Repr, DecidableEq

/-- `FacilitatorConfig` from the source; `url` optionality is modelled by
the empty string, matching `config.url?.trim() ?? ""`. -/
structure FacilitatorConfig where
  url : String
  apiKey : String := ""
  timeoutMs : Nat := 15000
  retryAttempts : Nat := 0
  retryBackoffMs : Nat := 300
  network : String
deriving Repr, DecidableEq

/-- What the external service does on one attempt. -/
inductive AttemptOutcome where
  | ok (body : FacilitatorBody)
  | fail (message : String)
deriving Repr, DecidableEq

/-- The string content of a JSON field, when it is a string. -/
def jfieldStr? : JField → Option String
  | .jstr s => some s
  | _ => none

/-- `typeof x === "string"` for a possibly absent field: absent fields
and string fields pass, anything else is an invalid override type. -/
def jfieldTypeOk : JField → Bool
  | .absent => true
  | .jstr _ => true
  | _ => false

/-- The body of one iteration of the retry loop: everything inside the
`try` after the response has arrived (status check already folded into
`AttemptOutcome.fail`).  Mirrors `requestFacilitatorDecision`'s parsing:
`accepted` defaults to `true` when absent or not a boolean; an explicit
rejection throws the reason; a present but non-string `targetAddress` or
`amountInTon` throws; otherwise the decision falls back to the caller's
original target / amount for absent fields. -/
def attemptOnce (input : FacilitatorRequestInput) (outcome : AttemptOutcome) :
    Except String FacilitatorDecision :=
  match outcome with
  | .fail message => .error message
  | .ok body =>
    let accepted := match body.accepted with
      | .jbool b => b
      | _ => true
    if accepted then
      if jfieldTypeOk body.targetAddress then
        if jfieldTypeOk body.amountInTon then
          .ok { targetAddress := (jfieldStr? body.targetAddress).getD input.targetAddress
                amountInTon := (jfieldStr? body.amountInTon).getD input.amountInTon
                reference := jfieldStr? body.reference
                note := jfieldStr? body.note }
        else .error "Facilitator response has invalid amountInTon type"
      else .error "Facilitator response has invalid targetAddress type"
    else
      .error ((jfieldStr? body.reason).getD "Facilitator rejected the payment request")

/-- Observable result of a whole `requestFacilitatorDecision` run: the
returned value / thrown error, the number of service calls made, and the
backoff sleeps (in ms) performed between consecutive attempts. -/
structure FacilitatorRun where
  result : Except String FacilitatorDecision
  calls : Nat
  sleepsMs : List Nat
deriving Repr

/-- The `for (attempt = 1; attempt <= totalAttempts; ...)` loop of
`requestFacilitatorDecision`: `attempt` is the 1-based attempt number,
`remaining` the number of retries still allowed after this attempt.  A
failed attempt sleeps `retryBackoffMs * attempt` and retries while
retries remain; exhausting them throws an error carrying the last
failure's detail. -/
def facilitatorLoop (service : Nat → AttemptOutcome) (input : FacilitatorRequestInput)
    (backoffMs : Nat) (attempt : Nat) : Nat → FacilitatorRun
  | 0 =>
    match attemptOnce input (service attempt) with
    | .ok d => { result := .ok d, calls := 1, sleepsMs := [] }
    | .error msg =>
      { result := .error ("x402 facilitator integration failed: " ++ msg)
        calls := 1, sleepsMs := [] }
  | r + 1 =>
    match attemptOnce input (service attempt) with
    | .ok d => { result := .ok d, calls := 1, sleepsMs := [] }
    | .error _ =>
      let rest := facilitatorLoop service input backoffMs (attempt + 1) r
      { result := rest.result
        calls := rest.calls + 1
        sleepsMs := (backoffMs * attempt) :: rest.sleepsMs }

/-- `requestFacilitatorDecision`: returns `none` immediately when no URL
is configured, otherwise runs `retryAttempts + 1` bounded attempts. -/
def requestFacilitatorDecision (service : Nat → AttemptOutcome)
    (input : FacilitatorRequestInput) (config : FacilitatorConfig) :
    Except String (Option FacilitatorDecision) × Nat × List Nat :=
  if strTrim config.url = "" then
    (.ok none, 0, [])
  else
    let run := facilitatorLoop service input config.retryBackoffMs 1 config.retryAttempts
    (run.result.map some, run.calls, run.sleepsMs)

/-! ## Approval bot state machine

Shallow embedding of the approval lifecycle, audit correlation and
transaction deduplication from `bot.ts`.  External effects (Telegram
replies, the chain submission of `submitOwnerApproval`) are abstracted:
replies become returned strings, the submission becomes an
`Except String String` parameter (the owner wallet on success, the thrown
message on failure), and sent notifications are logged in the state. -/

/-- `ApprovalStatus` from `bot.ts`. -/
inductive ApprovalStatus where
  | pending
  | approved
  | rejected
  | failed
deriving Repr, DecidableEq

/-- The textual rendering of a status, as interpolated into replies. -/
def statusText : ApprovalStatus → String
  | .pending => "pending"
  | .approved => "approved"
  | .rejected => "rejected"
  | .failed => "failed"

/-- `PendingApproval` from `bot.ts` (addresses as strings, bigint as
`Int`). -/
structure PendingApproval where
  id : String
  amount : Int
  target : String
  txLt : String
  txHashHex : String
deriving Repr, DecidableEq

/-- `ApprovalRecord` from `bot.ts`: the pending fields plus lifecycle
fields. -/
structure ApprovalRecord where
  id : String
  amount : Int
  target : String
  txLt : String
  txHashHex : String
  status : ApprovalStatus
  createdAt : String
  requestId : Option String := none
  resolvedAt : Option String := none
  resolvedBy : Option String := none
  ownerWallet : Option String := none
  submitError : Option String := none
deriving Repr, DecidableEq

/-- `RequestAuditStatus` from `bot.ts`. -/
inductive RequestAuditStatus where
  | submitted
  | approval_pending
  | approved
  | rejected
  | failed
deriving Repr, DecidableEq

/-- `RequestAuditRecord` from `bot.ts`. -/
structure RequestAuditRecord where
  requestId : String
  contractAddress : String
  targetAddress : String
  amountInTon : String
  amountNano : String
  createdAt : String
  status : RequestAuditStatus
  approvalExpected : Bool
  consumedByApprovalId : Option String := none
  statusUpdatedAt : Option String := none
deriving Repr, DecidableEq

/-- The matching test of `claimMatchingRequestId`: unconsumed, same
contract address, same target address, exactly equal amount. -/
def auditMatches (contractAddr : String) (approval : PendingApproval)
    (r : RequestAuditRecord) : Bool :=
  r.consumedByApprovalId = none ∧ r.contractAddress = contractAddr ∧
    r.targetAddress = approval.target ∧ r.amountNano = toString approval.amount

/-- Marking an audit record consumed by an approval, as done inside the
loop of `claimMatchingRequestId`. -/
def markClaimed (approvalId : String) (now : String) (r : RequestAuditRecord) :
    RequestAuditRecord :=
  { r with consumedByApprovalId := some approvalId
           status := .approval_pending
           statusUpdatedAt := some now }

/-- The `for (let i = records.length - 1; i >= 0; i -= 1)` scan of
`claimMatchingRequestId`, expressed as recursion that gives priority to
the tail (the most recently appended records). -/
def claimGo (contractAddr : String) (approval : PendingApproval) (now : String) :
    List RequestAuditRecord → List RequestAuditRecord × Option String
  | [] => ([], none)
  | r :: rest =>
    match claimGo contractAddr approval now rest with
    | (rest', some rid) => (r :: rest', some rid)
    | (rest', none) =>
      if auditMatches contractAddr approval r then
        (markClaimed approval.id now r :: rest', some r.requestId)
      else
        (r :: rest', none)

/-- `claimMatchingRequestId` from `bot.ts`: claim the most recently
created unconsumed matching audit record, returning the updated records
and the matched request id. -/
def claimMatchingRequestId (contractAddr : String)
    (records : List RequestAuditRecord) (approval : PendingApproval) (now : String) :
    List RequestAuditRecord × Option String :=
  claimGo contractAddr approval now records

/-- The backwards scan of `updateRequestAuditStatus` (first matching
request id from the end, then `break`). -/
def updateAuditGo (requestId : String) (status : RequestAuditStatus) (now : String) :
    List RequestAuditRecord → List RequestAuditRecord × Bool
  | [] => ([], false)
  | r :: rest =>
    match updateAuditGo requestId status now rest with
    | (rest', true) => (r :: rest', true)
    | (rest', false) =>
      if r.requestId = requestId then
        ({ r with status := status, statusUpdatedAt := some now } :: rest', true)
      else
        (r :: rest', false)

/-- `updateRequestAuditStatus` from `bot.ts`: best-effort forward status
update of the most recent audit record with this request id; a no-op for
`undefined` or unknown ids. -/
def updateRequestAuditStatus (records : List RequestAuditRecord)
    (requestId : Option String) (status : RequestAuditStatus) (now : String) :
    List RequestAuditRecord :=
  match requestId with
  | none => records
  | some rid => (updateAuditGo rid status now records).1

/-- The optional extra fields passed to `setRecordStatus` (object spread:
an absent key leaves the stored field untouched). -/
structure ResolutionExtra where
  ownerWallet : Option String := none
  submitError : Option String := none
deriving Repr, DecidableEq

/-- Object-spread semantics for one optional extra field: a present key
overrides, an absent key keeps the stored value. -/
def spreadField (extra stored : Option String) : Option String :=
  match extra with
  | some v => some v
  | none => stored

/-- `setRecordStatus` from `bot.ts`: overwrite status / resolution fields
of an existing record; silently a no-op when the record is absent. -/
def setRecordStatus (records : List (String × ApprovalRecord)) (approvalId : String)
    (status : ApprovalStatus) (resolvedBy : String) (now : String)
    (extra : ResolutionExtra) : List (String × ApprovalRecord) :=
  match alookup records approvalId with
  | none => records
  | some existing =>
    aset records approvalId
      { existing with
          status := status
          resolvedAt := some now
          resolvedBy := some resolvedBy
          ownerWallet := spreadField extra.ownerWallet existing.ownerWallet
          submitError := spreadField extra.submitError existing.submitError }

/-- The full bot-side persisted/in-memory state: the pending approval
map, the approval record store, the seen-transaction set, the audit log,
and a log of the approval ids for which a Telegram notification was
actually sent. -/
structure MonState where
  pendingApprovals : List (String × PendingApproval)
  approvalRecords : List (String × ApprovalRecord)
  seenTransactions : List String
  auditRecords : List RequestAuditRecord
  sentNotifications : List String
deriving Repr, DecidableEq

/-- An outbound message of a chain transaction: `some (amount, target)`
iff its body parses as an `ApprovalRequest` payload. -/
structure ChainMessage where
  approvalPayload : Option (Int × String)
deriving Repr, DecidableEq

/-- A chain transaction as the deduplicator sees it. -/
structure ChainTransaction where
  lt : String
  hashHex : String
  outMessages : List ChainMessage
deriving Repr, DecidableEq

/-- `approvalKeyFromTx`: the deterministic approval identifier. -/
def approvalKeyFromTx (lt hashHex : String) : String :=
  lt ++ "-" ++ hashHex.take 8

/-- First outbound message that parses as an approval request. -/
def firstApprovalPayload : List ChainMessage → Option (Int × String)
  | [] => none
  | m :: rest =>
    match m.approvalPayload with
    | some p => some p
    | none => firstApprovalPayload rest

/-- `parseApprovalFromTransaction` from `bot.ts`: `none` for an already
seen transaction, otherwise the pending approval derived from the first
parseable outbound message. -/
def parseApprovalFromTransaction (seen : List String) (tx : ChainTransaction) :
    Option PendingApproval :=
  if tx.hashHex ∈ seen then none
  else
    match firstApprovalPayload tx.outMessages with
    | some (amount, target) =>
      some { id := approvalKeyFromTx tx.lt tx.hashHex
             amount := amount
             target := target
             txLt := tx.lt
             txHashHex := tx.hashHex }
    | none => none

/-- `notifyApprovalRequest` from `bot.ts`: a no-op (bar re-registering a
still-pending approval in the in-memory map) when a record already
exists; otherwise correlate with the audit log, create the `pending`
record and send exactly one Telegram notification. -/
def notifyApprovalRequest (contractAddr : String) (st : MonState)
    (approval : PendingApproval) (now : String) : MonState :=
  match alookup st.approvalRecords approval.id with
  | some existingRecord =>
    if existingRecord.status = .pending ∧ alookup st.pendingApprovals approval.id = none then
      { st with pendingApprovals := aset st.pendingApprovals approval.id approval }
    else
      st
  | none =>
    let pending1 := aset st.pendingApprovals approval.id approval
    let claimed := claimMatchingRequestId contractAddr st.auditRecords approval now
    let record : ApprovalRecord :=
      { id := approval.id
        amount := approval.amount
        target := approval.target
        txLt := approval.txLt
        txHashHex := approval.txHashHex
        status := .pending
        createdAt := now
        requestId := claimed.2 }
    { st with
        pendingApprovals := pending1
        approvalRecords := aset st.approvalRecords approval.id record
        auditRecords := claimed.1
        sentNotifications := st.sentNotifications ++ [approval.id] }

/-- One transaction of the poll loop body: parse (with dedup) and notify. -/
def processTx (contractAddr : String) (st : MonState) (tx : ChainTransaction)
    (now : String) : MonState :=
  match parseApprovalFromTransaction st.seenTransactions tx with
  | some approval => notifyApprovalRequest contractAddr st approval now
  | none => st

/-- `Set.add` on the seen-transaction set. -/
def addSeen (seen : List String) (h : String) : List String :=
  if h ∈ seen then seen else seen ++ [h]

/-- `markSeen` from `bot.ts`: every polled transaction hash is recorded,
whether or not it yielded an approval. -/
def markSeen (st : MonState) (txs : List ChainTransaction) : MonState :=
  { st with seenTransactions := txs.foldl (fun s tx => addSeen s tx.hashHex) st.seenTransactions }

/-- One tick of the `setInterval` poll loop: process each fetched
transaction, then mark the whole batch seen. -/
def pollCycle (contractAddr : String) (st : MonState) (txs : List ChainTransaction)
    (now : String) : MonState :=
  markSeen (txs.foldl (fun s tx => processTx contractAddr s tx now) st) txs

/-- The `catch` block of the `approve` callback handler in `bot.ts`:
read the linked request id, stamp the record `failed` with the error
detail, advance the audit log — regardless of the record's current
status — and answer "Approval failed.". -/
def approveCallbackCatch (st : MonState) (fromId approvalId errMsg : String)
    (now : String) : MonState × String :=
  let recordRequestId := (alookup st.approvalRecords approvalId).bind (fun r => r.requestId)
  let records := setRecordStatus st.approvalRecords approvalId .failed fromId now
    { submitError := some errMsg }
  let audit := updateRequestAuditStatus st.auditRecords recordRequestId .failed now
  ({ st with approvalRecords := records, auditRecords := audit }, "Approval failed.")

/-- The body of the `approve` callback handler once the non-pending guard
has passed: look up the in-memory pending approval, submit on-chain,
resolve the record and audit trail, or fall into the `catch` on a
submission failure. -/
def approveCallbackPending (st : MonState) (fromId approvalId : String)
    (submission : Except String String) (now : String) : MonState × String :=
  match alookup st.pendingApprovals approvalId with
  | none => (st, "Approval request not found or already handled.")
  | some _ =>
    match submission with
    | .ok ownerWallet =>
      let pending1 := aerase st.pendingApprovals approvalId
      let recordRequestId := (alookup st.approvalRecords approvalId).bind (fun r => r.requestId)
      let records := setRecordStatus st.approvalRecords approvalId .approved fromId now
        { ownerWallet := some ownerWallet }
      let audit := updateRequestAuditStatus st.auditRecords recordRequestId .approved now
      ({ st with pendingApprovals := pending1, approvalRecords := records, auditRecords := audit },
        "Approved and submitted by owner wallet " ++ ownerWallet ++ ". Ref: " ++ approvalId)
    | .error errMsg => approveCallbackCatch st fromId approvalId errMsg now

/-- The `bot.callbackQuery(/approve:/)` handler from `bot.ts`.  The chain
submission is the `submission` parameter (owner wallet on success, thrown
message on failure).  An unauthorized chat makes `ensureAuthorizedChat`
throw before the non-pending guard, landing in the `catch` block. -/
def approveCallback (ownerChatId : String) (st : MonState)
    (chatId fromId approvalId : String) (submission : Except String String)
    (now : String) : MonState × String :=
  if chatId = ownerChatId then
    match alookup st.approvalRecords approvalId with
    | some record =>
      if record.status = .pending then
        approveCallbackPending st fromId approvalId submission now
      else
        (st, "Request already " ++ statusText record.status ++ ".")
    | none =>
      approveCallbackPending st fromId approvalId submission now
  else
    approveCallbackCatch st fromId approvalId "Unauthorized chat" now

/-! ## Concrete inputs used by counterexamples and witnesses -/

/-- A fixed facilitator request. -/
def inp0 : FacilitatorRequestInput :=
  { requestId := "r1", contractAddress := "C", targetAddress := "T", amountInTon := "1" }

/-- A configured facilitator with no retries. -/
def cfg0 : FacilitatorConfig :=
  { url := "https://facilitator.example", network := "testnet", retryAttempts := 0 }

/-- A configured facilitator with one retry. -/
def cfg1 : FacilitatorConfig :=
  { url := "https://facilitator.example", network := "testnet", retryAttempts := 1 }

/-- An HTTP-ok response body carrying an explicit rejection with the given
reason. -/
def rejectionBody (rs : String) : FacilitatorBody :=
  { accepted := .jbool false, reason := .jstr rs }

/-- A service that explicitly rejects with reason "X" on the first call
and accepts on every later call. -/
def svcRejThenOk : Nat → AttemptOutcome := fun a =>
  if a = 1 then .ok (rejectionBody "X") else .ok { accepted := .jbool true }

/-- An HTTP-ok body whose `accepted` is not a boolean and whose
`targetAddress` is present with an invalid (non-string) type. -/
def invalidOverrideBody : FacilitatorBody :=
  { accepted := .jother, targetAddress := .jother }

/-- An envelope with budget 10, window 10s started at t=100, 8 already
spent, agent "a" assigned. -/
def E0cex : EnvelopeRecord :=
  { id := "e", totalBudgetNano := 10, spentInWindowNano := 8, periodSeconds := 10
    windowStartedAt := 100, createdAt := "100", agentIds := ["a"] }

/-- An already-approved approval record. -/
def REC0 : ApprovalRecord :=
  { id := "a", amount := 5, target := "T", txLt := "1", txHashHex := "deadbeef"
    status := .approved, createdAt := "t0", resolvedAt := some "t1"
    resolvedBy := some "owner", ownerWallet := some "w" }

/-- A bot state holding only the already-approved record `REC0`. -/
def stA : MonState :=
  { pendingApprovals := [], approvalRecords := [("a", REC0)], seenTransactions := []
    auditRecords := [], sentNotifications := [] }

/-- An unconsumed audit record for contract "C", target "T", amount 5. -/
def AR (rid created : String) : RequestAuditRecord :=
  { requestId := rid, contractAddress := "C", targetAddress := "T", amountInTon := "1"
    amountNano := "5", createdAt := created, status := .submitted, approvalExpected := true }

/-- A pending approval matching `AR`'s contract, target and amount. -/
def APPR : PendingApproval :=
  { id := "appr-1", amount := 5, target := "T", txLt := "9", txHashHex := "cafebabe01234567" }

/-- A transaction with one approval-request outbound message. -/
def TX1 : ChainTransaction :=
  { lt := "7", hashHex := "aabbccddeeff0011", outMessages := [{ approvalPayload := some (5, "T") }] }

/-- An empty bot state. -/
def stB : MonState :=
  { pendingApprovals := [], approvalRecords := [], seenTransactions := []
    auditRecords := [], sentNotifications := [] }

/-! ## Association-list lemmas -/

theorem alookup_aset {α : Type} (l : List (String × α)) (k k' : String) (v : α) :
    alookup (aset l k v) k' = if k = k' then some v else alookup l k' := by
  induction l with
  | nil => simp [aset, alookup]
  | cons hd tl ih =>
    obtain ⟨k1, v1⟩ := hd
    by_cases h1 : k1 = k
    · subst h1
      simp only [aset, if_pos rfl]
      by_cases h2 : k1 = k' <;> simp [alookup, h2]
    · simp only [aset, if_neg h1, alookup, ih]
      by_cases h2 : k1 = k'
      · subst h2
        have hk : ¬ k = k1 := fun hh => h1 hh.symm
        simp [hk]
      · simp [h2]

theorem aset_self {α : Type} {l : List (String × α)} {k : String} {v : α}
    (h : alookup l k = some v) : aset l k v = l := by
  induction l with
  | nil => simp [alookup] at h
  | cons hd tl ih =>
    obtain ⟨k1, v1⟩ := hd
    by_cases h1 : k1 = k
    · subst h1
      simp [alookup] at h
      simp [aset, h]
    · simp [alookup, h1] at h
      simp [aset, h1, ih h]

theorem aset_aset {α : Type} (l : List (String × α)) (k : String) (v w : α) :
    aset (aset l k v) k w = aset l k w := by
  induction l with
  | nil => simp [aset]
  | cons hd tl ih =>
    obtain ⟨k1, v1⟩ := hd
    by_cases h1 : k1 = k
    · subst h1; simp [aset]
    · simp [aset, h1, ih]

theorem alookup_aset_self {α : Type} (l : List (String × α)) (k : String) (v : α) :
    alookup (aset l k v) k = some v := by
  rw [alookup_aset]; simp

/-! ## Envelope ledger lemmas -/

theorem normalizeWindow_agentIds (e : EnvelopeRecord) (now : Int) :
    (normalizeWindow e now).agentIds = e.agentIds := by
  unfold normalizeWindow; split <;> rfl

theorem normalizeWindow_total (e : EnvelopeRecord) (now : Int) :
    (normalizeWindow e now).totalBudgetNano = e.totalBudgetNano := by
  unfold normalizeWindow; split <;> rfl

theorem normalizeWindow_of_not_due {e : EnvelopeRecord} {now : Int}
    (h : now < e.windowStartedAt + e.periodSeconds) : normalizeWindow e now = e := by
  unfold normalizeWindow
  rw [if_neg (by omega)]

theorem envInv_normalize {e : EnvelopeRecord} (now : Int) (h : EnvInv e) :
    EnvInv (normalizeWindow e now) := by
  unfold normalizeWindow
  split
  · exact ⟨le_refl 0, h.1.trans h.2⟩
  · exact h

theorem normalizeWindow_spent_le {e : EnvelopeRecord} (now : Int) (h : 0 ≤ e.spentInWindowNano) :
    (normalizeWindow e now).spentInWindowNano ≤ e.spentInWindowNano := by
  unfold normalizeWindow
  split
  · exact h
  · exact le_refl _

theorem stateInv_aset {st : BrokerState} {k : String} {v : EnvelopeRecord}
    (h : StateInv st) (hv : EnvInv v) : StateInv (aset st k v) := by
  intro k' e he
  rw [alookup_aset] at he
  split at he
  · cases he; exact hv
  · exact h _ _ he

theorem getEnvelopeAllowance_of_mem {st : BrokerState} {envelopeId : String} {e : EnvelopeRecord}
    (now : Int) (h : alookup st envelopeId = some e) :
    getEnvelopeAllowance st envelopeId now =
      (aset st envelopeId (normalizeWindow e now),
        .ok (normalizeWindow e now,
          (normalizeWindow e now).totalBudgetNano - (normalizeWindow e now).spentInWindowNano)) := by
  simp [getEnvelopeAllowance, h]

theorem stateInv_applyOp (st : BrokerState) (op : BrokerOp) (h : StateInv st) :
    StateInv (applyOp st op) := by
  cases op with
  | create envelopeId total period now =>
    show StateInv (createEnvelope st envelopeId total period now).1
    unfold createEnvelope
    split
    · exact h
    · split
      · exact h
      · split
        · exact h
        · rcases hl : alookup st envelopeId with _ | e
          · simp only [hl]
            refine stateInv_aset h ⟨le_refl 0, ?_⟩
            simp only [not_le] at *
            omega
          · simp only [hl]; exact h
  | assign envelopeId agentId =>
    show StateInv (assignAgentToEnvelope st envelopeId agentId).1
    rcases hl : alookup st envelopeId with _ | e
    · simp only [assignAgentToEnvelope, hl]
      exact h
    · have he := h _ _ hl
      simp only [assignAgentToEnvelope, hl]
      split
      · exact h
      · split
        · exact h
        · exact stateInv_aset h he
  | allowance envelopeId now =>
    show StateInv (getEnvelopeAllowance st envelopeId now).1
    rcases hl : alookup st envelopeId with _ | e
    · simp only [getEnvelopeAllowance, hl]
      exact h
    · simp only [getEnvelopeAllowance, hl]
      exact stateInv_aset h (envInv_normalize now (h _ _ hl))
  | reserve envelopeId agentId amount now =>
    show StateInv (reserveEnvelopeBudget st envelopeId agentId amount now).1
    unfold reserveEnvelopeBudget
    split
    · exact h
    · rcases hl : alookup st envelopeId with _ | e
      · simp only [getEnvelopeAllowance, hl]
        exact h
      · rw [getEnvelopeAllowance_of_mem now hl]
        have hn := envInv_normalize now (h _ _ hl)
        have hs : StateInv (aset st envelopeId (normalizeWindow e now)) := stateInv_aset h hn
        obtain ⟨hn1, hn2⟩ := hn
        simp only []
        split
        · split
          · exact hs
          · next hrem =>
            refine stateInv_aset hs ⟨?_, ?_⟩ <;> simp only [] <;> omega
        · exact hs
  | rollback envelopeId amount =>
    show StateInv (rollbackEnvelopeReservation st envelopeId amount).1
    unfold rollbackEnvelopeReservation
    split
    · exact h
    · rcases hl : alookup st envelopeId with _ | e
      · simp only [hl]
        exact h
      · have he := h _ _ hl
        obtain ⟨he1, he2⟩ := he
        simp only [hl]
        split
        · exact h
        · next hns =>
          refine stateInv_aset h ⟨?_, ?_⟩ <;> simp only [] <;> omega

theorem stateInv_applyOps (ops : List BrokerOp) (st : BrokerState) (h : StateInv st) :
    StateInv (applyOps st ops) := by
  induction ops generalizing st with
  | nil => exact h
  | cons op rest ih => exact ih _ (stateInv_applyOp st op h)

theorem stateInv_empty : StateInv ([] : BrokerState) := by
  intro k e he
  simp [alookup] at he

theorem reserve_ok_eq {st : BrokerState} {envelopeId agentId : String}
    {amountNano now : Int} {e : EnvelopeRecord}
    (hl : alookup st envelopeId = some e)
    (hag : agentId ∈ e.agentIds)
    (hpos : 0 < amountNano)
    (hle : amountNano ≤ (normalizeWindow e now).totalBudgetNano -
      (normalizeWindow e now).spentInWindowNano) :
    reserveEnvelopeBudget st envelopeId agentId amountNano now =
      (aset st envelopeId
        { normalizeWindow e now with
            spentInWindowNano := (normalizeWindow e now).spentInWindowNano + amountNano },
       .ok ({ normalizeWindow e now with
                spentInWindowNano := (normalizeWindow e now).spentInWindowNano + amountNano },
            (normalizeWindow e now).totalBudgetNano -
              ((normalizeWindow e now).spentInWindowNano + amountNano))) := by
  unfold reserveEnvelopeBudget
  rw [if_neg (by omega), getEnvelopeAllowance_of_mem now hl]
  simp only []
  rw [if_pos (by rw [normalizeWindow_agentIds]; exact hag), if_neg (by omega), aset_aset]

theorem reserve_budget_exceeded_eq {st : BrokerState} {envelopeId agentId : String}
    {amountNano now : Int} {e : EnvelopeRecord}
    (hl : alookup st envelopeId = some e)
    (hinv : EnvInv e)
    (hag : agentId ∈ e.agentIds)
    (hgt : (normalizeWindow e now).totalBudgetNano -
      (normalizeWindow e now).spentInWindowNano < amountNano) :
    reserveEnvelopeBudget st envelopeId agentId amountNano now =
      (aset st envelopeId (normalizeWindow e now),
       .error ("Envelope limit exceeded for " ++ envelopeId ++ ": remaining " ++
         toString ((normalizeWindow e now).totalBudgetNano -
           (normalizeWindow e now).spentInWindowNano) ++
         " nano, requested " ++ toString amountNano ++ " nano")) := by
  obtain ⟨hn1, hn2⟩ := envInv_normalize now hinv
  unfold reserveEnvelopeBudget
  rw [if_neg (by omega), getEnvelopeAllowance_of_mem now hl]
  simp only []
  rw [if_pos (by rw [normalizeWindow_agentIds]; exact hag), if_pos hgt]

/-! ## Claim theorems: envelope ledger -/

/-- C3 counterexample: a reserve of 20 against envelope `E0cex` (budget
10, spent 8, window 100..110) at t=111 fails with the budget-exceeded
error, yet it does NOT leave the envelope state unchanged: the lazy
window reset (spent 8 → 0, start 100 → 111) is persisted before the
failing check. -/
theorem failed_reserve_persists_window_reset_cex :
    (reserveEnvelopeBudget [("e", E0cex)] "e" "a" 20 111).2 =
      .error "Envelope limit exceeded for e: remaining 10 nano, requested 20 nano" ∧
    alookup (reserveEnvelopeBudget [("e", E0cex)] "e" "a" 20 111).1 "e" =
      some { E0cex with spentInWindowNano := 0, windowStartedAt := 111 } ∧
    ({ E0cex with spentInWindowNano := 0, windowStartedAt := 111 } : EnvelopeRecord) ≠ E0cex := by
  refine ⟨rfl, rfl, ?_⟩
  intro hcontra
  have := congrArg EnvelopeRecord.spentInWindowNano hcontra
  simp [E0cex] at this

/-- C3 (amended): for every sequence of envelope-ledger operations
starting from the empty state, `0 ≤ spent ≤ total` holds for every
stored envelope; and a reserve whose amount exceeds the remaining
allowance (computed after the lazy window reset) fails with the
budget-exceeded error without incrementing `spent` — the only state
change is the persisted window normalization, so whenever no window
rollover is due the state is exactly unchanged. -/
theorem spent_bounds_and_failed_reserve :
    (∀ ops : List BrokerOp, StateInv (applyOps [] ops)) ∧
    (∀ (st : BrokerState) (envelopeId agentId : String) (amountNano now : Int)
        (e : EnvelopeRecord),
      alookup st envelopeId = some e → EnvInv e → agentId ∈ e.agentIds →
      (normalizeWindow e now).totalBudgetNano -
        (normalizeWindow e now).spentInWindowNano < amountNano →
      (reserveEnvelopeBudget st envelopeId agentId amountNano now =
        (aset st envelopeId (normalizeWindow e now),
         .error ("Envelope limit exceeded for " ++ envelopeId ++ ": remaining " ++
           toString ((normalizeWindow e now).totalBudgetNano -
             (normalizeWindow e now).spentInWindowNano) ++
           " nano, requested " ++ toString amountNano ++ " nano"))) ∧
      (now < e.windowStartedAt + e.periodSeconds →
        (reserveEnvelopeBudget st envelopeId agentId amountNano now).1 = st)) := by
  constructor
  · intro ops
    exact stateInv_applyOps ops [] stateInv_empty
  · intro st envelopeId agentId amountNano now e hl hinv hag hgt
    refine ⟨reserve_budget_exceeded_eq hl hinv hag hgt, ?_⟩
    intro hnd
    rw [reserve_budget_exceeded_eq hl hinv hag hgt]
    simp only []
    rw [normalizeWindow_of_not_due hnd, aset_self hl]

/-- C3 witness: instantiating the amended theorem on `E0cex` (no rollover
due at t=105: a reserve of 20 exceeds the remaining 2 and leaves the
state exactly unchanged). -/
theorem spent_bounds_witness :
    alookup [("e", E0cex)] "e" = some E0cex ∧ EnvInv E0cex ∧ "a" ∈ E0cex.agentIds ∧
    (normalizeWindow E0cex 105).totalBudgetNano -
      (normalizeWindow E0cex 105).spentInWindowNano < 20 ∧
    (reserveEnvelopeBudget [("e", E0cex)] "e" "a" 20 105).1 = [("e", E0cex)] :=
  ⟨rfl, by constructor <;> decide, by decide,
   by decide,
   (spent_bounds_and_failed_reserve.2 [("e", E0cex)] "e" "a" 20 105 E0cex rfl
      ⟨by decide, by decide⟩ (by decide) (by decide)).2 (by decide)⟩

/-- C4: the coordinator's `execute_envelope_payment` reserves before the
chain submission — a failed reservation makes the handler's outcome
independent of the submission — and on a submission failure it rolls
back exactly the reserved amount before propagating the error: the
resulting envelope equals the normalized pre-reservation envelope, whose
`spent` is never above the pre-reservation `spent`. -/
theorem envelope_rollback_on_submit_failure :
    (∀ (st st1 : BrokerState) (envelopeId agentId : String) (amountNano now now2 : Int)
        (submission : Except String Unit) (msg : String),
      reserveEnvelopeBudget st envelopeId agentId amountNano now = (st1, .error msg) →
      executeEnvelopePayment st envelopeId agentId amountNano now submission now2 =
        (st1, .error msg)) ∧
    (∀ (st : BrokerState) (envelopeId agentId : String) (amountNano now now2 : Int)
        (errMsg : String) (e : EnvelopeRecord),
      alookup st envelopeId = some e → EnvInv e → agentId ∈ e.agentIds →
      0 < amountNano →
      amountNano ≤ (normalizeWindow e now).totalBudgetNano -
        (normalizeWindow e now).spentInWindowNano →
      executeEnvelopePayment st envelopeId agentId amountNano now (.error errMsg) now2 =
        (aset st envelopeId (normalizeWindow e now), .error errMsg) ∧
      (normalizeWindow e now).spentInWindowNano ≤ e.spentInWindowNano) := by
  constructor
  · intro st st1 envelopeId agentId amountNano now now2 submission msg hres
    unfold executeEnvelopePayment
    rw [hres]
  · intro st envelopeId agentId amountNano now now2 errMsg e hl hinv hag hpos hle
    obtain ⟨hn1, hn2⟩ := envInv_normalize now hinv
    refine ⟨?_, normalizeWindow_spent_le now hinv.1⟩
    unfold executeEnvelopePayment
    rw [reserve_ok_eq hl hag hpos hle]
    simp only []
    unfold rollbackEnvelopeReservation
    rw [if_neg (by omega), alookup_aset_self]
    simp only []
    rw [if_neg (by omega)]
    have harith : (normalizeWindow e now).spentInWindowNano + amountNano - amountNano =
        (normalizeWindow e now).spentInWindowNano := by omega
    rw [aset_aset]
    simp only [harith]

/-- C4 witness: on `E0cex` at t=105 (remaining 2), reserving 2 and then
failing the submission restores the stored envelope exactly. -/
theorem envelope_rollback_witness :
    alookup [("e", E0cex)] "e" = some E0cex ∧ EnvInv E0cex ∧ "a" ∈ E0cex.agentIds ∧
    (0 : Int) < 2 ∧
    (2 : Int) ≤ (normalizeWindow E0cex 105).totalBudgetNano -
      (normalizeWindow E0cex 105).spentInWindowNano ∧
    executeEnvelopePayment [("e", E0cex)] "e" "a" 2 105 (.error "boom") 106 =
      ([("e", E0cex)], .error "boom") :=
  ⟨rfl, by constructor <;> decide, by decide, by decide, by decide, by
    have h := (envelope_rollback_on_submit_failure.2 [("e", E0cex)] "e" "a" 2 105 106
      "boom" E0cex rfl ⟨by decide, by decide⟩ (by decide) (by decide) (by decide)).1
    rw [h]
    rfl⟩

/-- C6: with no window rollover due at the reservation time, a
successful `reserve(amount)` followed by `rollback(amount)` restores the
broker state — and hence the reported remaining allowance — to its exact
pre-reservation value. -/
theorem reserve_rollback_roundtrip :
    ∀ (st : BrokerState) (envelopeId agentId : String) (amountNano now : Int)
      (e : EnvelopeRecord),
      alookup st envelopeId = some e → 0 ≤ e.spentInWindowNano →
      now < e.windowStartedAt + e.periodSeconds →
      0 < amountNano →
      amountNano ≤ e.totalBudgetNano - e.spentInWindowNano →
      agentId ∈ e.agentIds →
      (rollbackEnvelopeReservation
        (reserveEnvelopeBudget st envelopeId agentId amountNano now).1
        envelopeId amountNano).1 = st ∧
      (getEnvelopeAllowance
        (rollbackEnvelopeReservation
          (reserveEnvelopeBudget st envelopeId agentId amountNano now).1
          envelopeId amountNano).1 envelopeId now).2 =
        (getEnvelopeAllowance st envelopeId now).2 := by
  intro st envelopeId agentId amountNano now e hl hsp hnd hpos hle hag
  have hst :
      (rollbackEnvelopeReservation
        (reserveEnvelopeBudget st envelopeId agentId amountNano now).1
        envelopeId amountNano).1 = st := by
    rw [reserve_ok_eq hl hag hpos (by rw [normalizeWindow_of_not_due hnd]; exact hle)]
    simp only []
    rw [normalizeWindow_of_not_due hnd]
    unfold rollbackEnvelopeReservation
    rw [if_neg (by omega), alookup_aset_self]
    simp only []
    rw [if_neg (by omega)]
    have harith : e.spentInWindowNano + amountNano - amountNano = e.spentInWindowNano := by
      omega
    rw [aset_aset]
    simp only [harith]
    rw [aset_self hl]
  exact ⟨hst, by rw [hst]⟩

/-- C6 witness: reserving 2 then rolling back 2 on `E0cex` at t=105
restores the exact state. -/
theorem reserve_rollback_witness :
    alookup [("e", E0cex)] "e" = some E0cex ∧ (0 : Int) ≤ E0cex.spentInWindowNano ∧
    (105 : Int) < E0cex.windowStartedAt + E0cex.periodSeconds ∧
    (rollbackEnvelopeReservation
      (reserveEnvelopeBudget [("e", E0cex)] "e" "a" 2 105).1 "e" 2).1 = [("e", E0cex)] :=
  ⟨rfl, by decide, by decide,
   (reserve_rollback_roundtrip [("e", E0cex)] "e" "a" 2 105 E0cex rfl (by decide)
      (by decide) (by decide) (by decide) (by decide)).1⟩

/-- C7: an allowance read at time `now` resets the window (spent → 0,
start → now) exactly when `now` reaches or passes
`windowStartedAt + periodSeconds`, reporting `total` remaining in that
case and `total - spent` otherwise; a successful reserve applies the same
lazy normalization before incrementing `spent`; and concretely, an
envelope created at t=100 with total 10 and a 10-second window, after a
spend of 8 at t=105, reports remaining 10 on an allowance read at
t=111. -/
theorem lazy_window_reset :
    (∀ (st : BrokerState) (envelopeId : String) (now : Int) (e : EnvelopeRecord),
      alookup st envelopeId = some e →
      (getEnvelopeAllowance st envelopeId now).2 =
        .ok (normalizeWindow e now,
          if e.windowStartedAt + e.periodSeconds ≤ now then e.totalBudgetNano
          else e.totalBudgetNano - e.spentInWindowNano) ∧
      alookup (getEnvelopeAllowance st envelopeId now).1 envelopeId =
        some (normalizeWindow e now) ∧
      (normalizeWindow e now).spentInWindowNano =
        (if e.windowStartedAt + e.periodSeconds ≤ now then 0 else e.spentInWindowNano) ∧
      (normalizeWindow e now).windowStartedAt =
        (if e.windowStartedAt + e.periodSeconds ≤ now then now else e.windowStartedAt)) ∧
    (∀ (st st1 : BrokerState) (envelopeId agentId : String) (amountNano now : Int)
        (env : EnvelopeRecord) (rem : Int),
      reserveEnvelopeBudget st envelopeId agentId amountNano now = (st1, .ok (env, rem)) →
      ∃ e, alookup st envelopeId = some e ∧
        env = { normalizeWindow e now with
                  spentInWindowNano := (normalizeWindow e now).spentInWindowNano + amountNano } ∧
        alookup st1 envelopeId = some env) ∧
    ((getEnvelopeAllowance
        (reserveEnvelopeBudget
          ((assignAgentToEnvelope (createEnvelope [] "env" 10 10 100).1 "env" "a").1)
          "env" "a" 8 105).1 "env" 111).2 =
      .ok ({ id := "env", totalBudgetNano := 10, spentInWindowNano := 0, periodSeconds := 10
             windowStartedAt := 111, createdAt := "100", agentIds := ["a"] }, 10)) := by
  refine ⟨?_, ?_, by rfl⟩
  · intro st envelopeId now e hl
    rw [getEnvelopeAllowance_of_mem now hl]
    refine ⟨?_, by rw [alookup_aset_self], ?_, ?_⟩ <;>
      unfold normalizeWindow <;> split <;> simp
  · intro st st1 envelopeId agentId amountNano now env rem hres
    unfold reserveEnvelopeBudget at hres
    split at hres
    · simp at hres
    · rcases hl : alookup st envelopeId with _ | e
      · simp [getEnvelopeAllowance, hl] at hres
      · rw [getEnvelopeAllowance_of_mem now hl] at hres
        simp only [] at hres
        split at hres
        · split at hres
          · simp at hres
          · simp only [Prod.mk.injEq, Except.ok.injEq] at hres
            obtain ⟨hst1, henv, hrem⟩ := hres
            subst hst1
            subst henv
            refine ⟨e, rfl, rfl, ?_⟩
            rw [aset_aset, alookup_aset_self]
        · simp at hres

/-- C7 witness: instantiating the window-reset theorem on `E0cex`
(window 100..110) at t=111, where the reset is due and the reported
remaining allowance equals the full budget. -/
theorem lazy_window_reset_witness :
    alookup [("e", E0cex)] "e" = some E0cex ∧
    (getEnvelopeAllowance [("e", E0cex)] "e" 111).2 =
      .ok (normalizeWindow E0cex 111,
        if E0cex.windowStartedAt + E0cex.periodSeconds ≤ 111 then E0cex.totalBudgetNano
        else E0cex.totalBudgetNano - E0cex.spentInWindowNano) :=
  ⟨rfl, (lazy_window_reset.1 [("e", E0cex)] "e" 111 E0cex rfl).1⟩

/-! ## Facilitator lemmas -/

theorem request_run {service : Nat → AttemptOutcome} {input : FacilitatorRequestInput}
    {config : FacilitatorConfig} (hurl : strTrim config.url ≠ "") :
    requestFacilitatorDecision service input config =
      ((facilitatorLoop service input config.retryBackoffMs 1 config.retryAttempts).result.map some,
       (facilitatorLoop service input config.retryBackoffMs 1 config.retryAttempts).calls,
       (facilitatorLoop service input config.retryBackoffMs 1 config.retryAttempts).sleepsMs) := by
  unfold requestFacilitatorDecision
  rw [if_neg hurl]

theorem loop_first_ok {service : Nat → AttemptOutcome} {input : FacilitatorRequestInput}
    {backoffMs attempt : Nat} {d : FacilitatorDecision} (r : Nat)
    (h : attemptOnce input (service attempt) = .ok d) :
    facilitatorLoop service input backoffMs attempt r =
      { result := .ok d, calls := 1, sleepsMs := [] } := by
  cases r <;> simp [facilitatorLoop, h]

theorem loop_zero_error {service : Nat → AttemptOutcome} {input : FacilitatorRequestInput}
    {backoffMs attempt : Nat} {msg : String}
    (h : attemptOnce input (service attempt) = .error msg) :
    facilitatorLoop service input backoffMs attempt 0 =
      { result := .error ("x402 facilitator integration failed: " ++ msg)
        calls := 1, sleepsMs := [] } := by
  unfold facilitatorLoop
  rw [h]

theorem loop_succ_error {service : Nat → AttemptOutcome} {input : FacilitatorRequestInput}
    {backoffMs attempt : Nat} {msg : String} (r : Nat)
    (h : attemptOnce input (service attempt) = .error msg) :
    facilitatorLoop service input backoffMs attempt (r + 1) =
      { result := (facilitatorLoop service input backoffMs (attempt + 1) r).result
        calls := (facilitatorLoop service input backoffMs (attempt + 1) r).calls + 1
        sleepsMs := backoffMs * attempt ::
          (facilitatorLoop service input backoffMs (attempt + 1) r).sleepsMs } := by
  simp [facilitatorLoop, h]

theorem loop_calls_pos (service : Nat → AttemptOutcome) (input : FacilitatorRequestInput)
    (backoffMs attempt r : Nat) :
    1 ≤ (facilitatorLoop service input backoffMs attempt r).calls := by
  rcases h : attemptOnce input (service attempt) with msg | d
  · cases r
    · rw [loop_zero_error h]
    · rw [loop_succ_error _ h]
      simp
  · rw [loop_first_ok r h]

theorem loop_calls_le (service : Nat → AttemptOutcome) (input : FacilitatorRequestInput)
    (backoffMs : Nat) (r : Nat) : ∀ attempt,
    (facilitatorLoop service input backoffMs attempt r).calls ≤ r + 1 := by
  induction r with
  | zero =>
    intro attempt
    rcases h : attemptOnce input (service attempt) with msg | d
    · rw [loop_zero_error h]
    · rw [loop_first_ok 0 h]
  | succ r ih =>
    intro attempt
    rcases h : attemptOnce input (service attempt) with msg | d
    · rw [loop_succ_error r h]
      exact Nat.succ_le_succ (ih (attempt + 1))
    · rw [loop_first_ok (r + 1) h]
      simp

theorem range_map_shift (b a c : Nat) :
    (List.range (c + 1)).map (fun i => b * (a + i)) =
      b * a :: (List.range c).map (fun i => b * (a + 1 + i)) := by
  rw [List.range_succ_eq_map, List.map_cons, List.map_map]
  have hf : ((fun i => b * (a + i)) ∘ Nat.succ) = (fun i => b * (a + 1 + i)) := by
    funext i
    simp only [Function.comp_apply, Nat.succ_eq_add_one]
    ring
  rw [hf]
  simp

theorem loop_sleeps_eq (service : Nat → AttemptOutcome) (input : FacilitatorRequestInput)
    (backoffMs : Nat) (r : Nat) : ∀ attempt,
    (facilitatorLoop service input backoffMs attempt r).sleepsMs =
      (List.range ((facilitatorLoop service input backoffMs attempt r).calls - 1)).map
        (fun i => backoffMs * (attempt + i)) := by
  induction r with
  | zero =>
    intro attempt
    rcases h : attemptOnce input (service attempt) with msg | d
    · rw [loop_zero_error h]
      simp
    · rw [loop_first_ok 0 h]
      simp
  | succ r ih =>
    intro attempt
    rcases h : attemptOnce input (service attempt) with msg | d
    · rw [loop_succ_error r h]
      obtain ⟨c, hc⟩ : ∃ c, (facilitatorLoop service input backoffMs (attempt + 1) r).calls
          = c + 1 := by
        have hp := loop_calls_pos service input backoffMs (attempt + 1) r
        exact ⟨_, (Nat.succ_pred_eq_of_pos hp).symm⟩
      show backoffMs * attempt ::
          (facilitatorLoop service input backoffMs (attempt + 1) r).sleepsMs =
        (List.range ((facilitatorLoop service input backoffMs (attempt + 1) r).calls + 1 - 1)).map
          (fun i => backoffMs * (attempt + i))
      rw [ih (attempt + 1), hc]
      simp only [Nat.add_sub_cancel]
      rw [range_map_shift]
    · rw [loop_first_ok (r + 1) h]
      simp

theorem loop_all_fail {service : Nat → AttemptOutcome} {input : FacilitatorRequestInput}
    {msgF : Nat → String} (backoffMs : Nat)
    (hall : ∀ a, attemptOnce input (service a) = .error (msgF a)) (r : Nat) :
    ∀ attempt,
    facilitatorLoop service input backoffMs attempt r =
      { result := .error ("x402 facilitator integration failed: " ++ msgF (attempt + r))
        calls := r + 1
        sleepsMs := (List.range r).map (fun i => backoffMs * (attempt + i)) } := by
  induction r with
  | zero =>
    intro attempt
    rw [loop_zero_error (hall attempt)]
    simp
  | succ r ih =>
    intro attempt
    have hx : attempt + 1 + r = attempt + (r + 1) := by omega
    rw [loop_succ_error r (hall attempt), ih (attempt + 1), hx, range_map_shift]

/-! ## Claim theorems: facilitator client -/

/-- C1 counterexample: with `retryAttempts = 1`, a service that answers
the first call with the explicit rejection `{accepted:false,
reason:"X"}` and accepts the second call makes
`requestFacilitatorDecision` RETRY the rejection and return the
successful decision after 2 calls — it does not fail at all, let alone
immediately. -/
theorem rejection_is_retried_cex :
    cfg1.retryAttempts = 1 ∧
    svcRejThenOk 1 = .ok (rejectionBody "X") ∧
    requestFacilitatorDecision svcRejThenOk inp0 cfg1 =
      (.ok (some { targetAddress := "T", amountInTon := "1", reference := none, note := none }),
       2, [300]) :=
  ⟨rfl, rfl, by rfl⟩

/-- C1 (amended): an explicit rejection `{accepted:false, reason:"X"}`
fails the current attempt with message exactly the reason string, and is
retried like any transient failure; when every attempt is rejected (in
particular when `retryAttempts = 0`, i.e. after a single attempt), the
call fails with a message containing the rejection reason, after
performing all `retryAttempts + 1` attempts. -/
theorem rejection_retried_like_transient :
    (∀ (input : FacilitatorRequestInput) (rs : String),
      attemptOnce input (.ok (rejectionBody rs)) = .error rs) ∧
    (∀ (service : Nat → AttemptOutcome) (input : FacilitatorRequestInput)
        (config : FacilitatorConfig) (rs : String),
      strTrim config.url ≠ "" →
      (∀ a, service a = .ok (rejectionBody rs)) →
      requestFacilitatorDecision service input config =
        (.error ("x402 facilitator integration failed: " ++ rs),
         config.retryAttempts + 1,
         (List.range config.retryAttempts).map (fun i => config.retryBackoffMs * (1 + i)))) := by
  constructor
  · intro input rs
    rfl
  · intro service input config rs hurl hall
    have hfail : ∀ a, attemptOnce input (service a) = .error rs := by
      intro a
      rw [hall a]
      rfl
    rw [request_run hurl,
      @loop_all_fail service input (fun _ => rs) config.retryBackoffMs hfail
        config.retryAttempts 1]
    rfl

/-- C1 witness: a permanently rejecting service with `retryAttempts = 0`
fails after exactly one attempt with the reason "X" in the message. -/
theorem rejection_retried_witness :
    strTrim cfg0.url ≠ "" ∧
    requestFacilitatorDecision (fun _ => .ok (rejectionBody "X")) inp0 cfg0 =
      (.error "x402 facilitator integration failed: X", 1, []) :=
  ⟨by decide, by
    have h := rejection_retried_like_transient.2 (fun _ => .ok (rejectionBody "X"))
      inp0 cfg0 "X" (by decide) (fun _ => rfl)
    rw [h]
    rfl⟩

/-- C5: with a configured URL, `requestFacilitatorDecision` performs at
most `retryAttempts + 1` calls; the waits between consecutive attempts
are `attempt * backoffMs` for the 1-based failed attempt index; a
service that fails once then succeeds returns the successful decision
after exactly 2 calls when `retryAttempts = 1`; and on exhausting all
attempts it fails with an error carrying the last attempt's detail. -/
theorem facilitator_retry_schedule :
    (∀ (service : Nat → AttemptOutcome) (input : FacilitatorRequestInput)
        (config : FacilitatorConfig), strTrim config.url ≠ "" →
      (requestFacilitatorDecision service input config).2.1 ≤ config.retryAttempts + 1) ∧
    (∀ (service : Nat → AttemptOutcome) (input : FacilitatorRequestInput)
        (config : FacilitatorConfig), strTrim config.url ≠ "" →
      (requestFacilitatorDecision service input config).2.2 =
        (List.range ((requestFacilitatorDecision service input config).2.1 - 1)).map
          (fun i => config.retryBackoffMs * (1 + i))) ∧
    (∀ (service : Nat → AttemptOutcome) (input : FacilitatorRequestInput)
        (config : FacilitatorConfig) (msg : String) (body : FacilitatorBody)
        (d : FacilitatorDecision),
      strTrim config.url ≠ "" → config.retryAttempts = 1 →
      service 1 = .fail msg → service 2 = .ok body →
      attemptOnce input (.ok body) = .ok d →
      requestFacilitatorDecision service input config =
        (.ok (some d), 2, [config.retryBackoffMs])) ∧
    (∀ (service : Nat → AttemptOutcome) (input : FacilitatorRequestInput)
        (config : FacilitatorConfig) (msgF : Nat → String),
      strTrim config.url ≠ "" →
      (∀ a, attemptOnce input (service a) = .error (msgF a)) →
      requestFacilitatorDecision service input config =
        (.error ("x402 facilitator integration failed: " ++ msgF (config.retryAttempts + 1)),
         config.retryAttempts + 1,
         (List.range config.retryAttempts).map (fun i => config.retryBackoffMs * (1 + i)))) := by
  refine ⟨?_, ?_, ?_, ?_⟩
  · intro service input config hurl
    rw [request_run hurl]
    exact loop_calls_le service input config.retryBackoffMs config.retryAttempts 1
  · intro service input config hurl
    rw [request_run hurl]
    exact loop_sleeps_eq service input config.retryBackoffMs config.retryAttempts 1
  · intro service input config msg body d hurl hra hs1 hs2 hd
    have e1 : attemptOnce input (service 1) = .error msg := by rw [hs1]; rfl
    have e2 : attemptOnce input (service 2) = .ok d := by rw [hs2]; exact hd
    rw [request_run hurl, hra]
    unfold facilitatorLoop
    rw [e1]
    simp only [loop_first_ok 0 e2, Except.map, Nat.mul_one]
  · intro service input config msgF hurl hall
    rw [request_run hurl,
      loop_all_fail config.retryBackoffMs hall config.retryAttempts 1,
      Nat.add_comm 1 config.retryAttempts]
    rfl

/-- C5 witness: `svcRejThenOk` fails once (attempt 1) and succeeds on
attempt 2; with `retryAttempts = 1` the run returns the decision after
exactly 2 calls, sleeping 300 ms in between. -/
theorem facilitator_retry_witness :
    strTrim cfg1.url ≠ "" ∧ cfg1.retryAttempts = 1 ∧
    (requestFacilitatorDecision svcRejThenOk inp0 cfg1).2.1 ≤ cfg1.retryAttempts + 1 :=
  ⟨by decide, rfl,
    facilitator_retry_schedule.1 svcRejThenOk inp0 cfg1 (by decide)⟩

/-- C10 counterexample: an HTTP-ok response whose `accepted` is not a
boolean but whose `targetAddress` is present with a non-string type makes
`requestFacilitatorDecision` fail (invalid targetAddress type) instead of
returning a Decision. -/
theorem accepted_default_invalid_override_cex :
    invalidOverrideBody.accepted = .jother ∧
    requestFacilitatorDecision (fun _ => .ok invalidOverrideBody) inp0 cfg0 =
      (.error
        "x402 facilitator integration failed: Facilitator response has invalid targetAddress type",
       1, []) :=
  ⟨rfl, by rfl⟩

/-- C10 (amended): for every HTTP-ok response whose `accepted` field is
absent or not a boolean, the request is treated as accepted; provided
the optional `targetAddress` / `amountInTon` overrides are absent or
strings, the call returns a Decision falling back to the caller's
original target and amount for absent fields (a present override of a
wrong type is instead a fatal parse error, per the counterexample). -/
theorem accepted_defaults_true :
    (∀ (input : FacilitatorRequestInput) (body : FacilitatorBody),
      (∀ b, body.accepted ≠ .jbool b) →
      jfieldTypeOk body.targetAddress = true →
      jfieldTypeOk body.amountInTon = true →
      attemptOnce input (.ok body) =
        .ok { targetAddress := (jfieldStr? body.targetAddress).getD input.targetAddress
              amountInTon := (jfieldStr? body.amountInTon).getD input.amountInTon
              reference := jfieldStr? body.reference
              note := jfieldStr? body.note }) ∧
    (∀ (service : Nat → AttemptOutcome) (input : FacilitatorRequestInput)
        (config : FacilitatorConfig) (body : FacilitatorBody) (d : FacilitatorDecision),
      strTrim config.url ≠ "" →
      (∀ a, service a = .ok body) →
      attemptOnce input (.ok body) = .ok d →
      requestFacilitatorDecision service input config = (.ok (some d), 1, [])) := by
  constructor
  · intro input body hacc ht ha
    cases hb : body.accepted with
    | jbool b => exact absurd hb (hacc b)
    | absent => simp [attemptOnce, hb, ht, ha]
    | jstr s => simp [attemptOnce, hb, ht, ha]
    | jother => simp [attemptOnce, hb, ht, ha]
  · intro service input config body d hurl hall hd
    have e1 : attemptOnce input (service 1) = .ok d := by rw [hall 1]; exact hd
    rw [request_run hurl, loop_first_ok config.retryAttempts e1]
    rfl

/-! ## Approval bot lemmas -/

theorem claimGo_of_nomatch {contractAddr : String} {approval : PendingApproval}
    {now : String} : ∀ {l : List RequestAuditRecord},
    (∀ r ∈ l, auditMatches contractAddr approval r = false) →
    claimGo contractAddr approval now l = (l, none) := by
  intro l
  induction l with
  | nil => intro _; rfl
  | cons r rest ih =>
    intro h
    have hr := h r (by simp)
    have hrest := ih (fun x hx => h x (by simp [hx]))
    simp [claimGo, hrest, hr]

theorem processTx_of_seen {ca : String} {st : MonState} {tx : ChainTransaction}
    {now : String} (h : tx.hashHex ∈ st.seenTransactions) :
    processTx ca st tx now = st := by
  simp [processTx, parseApprovalFromTransaction, h]

theorem mem_addSeen_self (s : List String) (h : String) : h ∈ addSeen s h := by
  unfold addSeen
  split
  · assumption
  · simp

theorem mem_addSeen_of_mem {s : List String} {x : String} (h : x ∈ s) (y : String) :
    x ∈ addSeen s y := by
  unfold addSeen
  split
  · exact h
  · simp [h]

theorem mem_foldl_addSeen_of_mem {x : String} :
    ∀ (txs : List ChainTransaction) (s : List String), x ∈ s →
    x ∈ txs.foldl (fun s t => addSeen s t.hashHex) s := by
  intro txs
  induction txs with
  | nil => intro s h; exact h
  | cons hd rest ih =>
    intro s h
    exact ih _ (mem_addSeen_of_mem h hd.hashHex)

theorem mem_foldl_addSeen {tx : ChainTransaction} :
    ∀ (txs : List ChainTransaction) (s : List String), tx ∈ txs →
    tx.hashHex ∈ txs.foldl (fun s t => addSeen s t.hashHex) s := by
  intro txs
  induction txs with
  | nil => intro s h; simp at h
  | cons hd rest ih =>
    intro s h
    rcases List.mem_cons.mp h with heq | hmem
    · subst heq
      exact mem_foldl_addSeen_of_mem rest _ (mem_addSeen_self s tx.hashHex)
    · exact ih _ hmem

theorem pollCycle_seen {ca : String} {st : MonState} {txs : List ChainTransaction}
    {now : String} {tx : ChainTransaction} (h : tx ∈ txs) :
    tx.hashHex ∈ (pollCycle ca st txs now).seenTransactions := by
  unfold pollCycle markSeen
  exact mem_foldl_addSeen txs _ h

theorem notify_existing {ca : String} {st : MonState} {approval : PendingApproval}
    {now : String} (h : (alookup st.approvalRecords approval.id).isSome = true) :
    (notifyApprovalRequest ca st approval now).sentNotifications = st.sentNotifications ∧
    (notifyApprovalRequest ca st approval now).approvalRecords = st.approvalRecords := by
  cases hl : alookup st.approvalRecords approval.id with
  | none => rw [hl] at h; simp at h
  | some rec =>
    refine ⟨?_, ?_⟩ <;>
      · simp only [notifyApprovalRequest, hl]
        split <;> rfl

/-! ## Claim theorems: approval bot -/

/-- C2: evaluating the `approve` callback handler at a failing input —
the record "a" is already terminal (`approved`), and an approve action
arrives from a chat that is not the owner chat.  The `catch` block
overwrites the terminal record to `failed` with `submitError`
"Unauthorized chat", contradicting terminal-state immutability; the
reply does not identify the record's current status either. -/
theorem terminal_record_clobbered_on_unauthorized_approve :
    (alookup stA.approvalRecords "a").map ApprovalRecord.status = some .approved ∧
    (alookup (approveCallback "oc" stA "intruder" "666" "a" (.ok "w2") "t2").1.approvalRecords
        "a").map ApprovalRecord.status = some .failed ∧
    ((alookup (approveCallback "oc" stA "intruder" "666" "a" (.ok "w2") "t2").1.approvalRecords
        "a").bind ApprovalRecord.submitError) = some "Unauthorized chat" ∧
    (approveCallback "oc" stA "intruder" "666" "a" (.ok "w2") "t2").2 = "Approval failed." :=
  ⟨rfl, rfl, rfl, rfl⟩

/-- C8: claiming against the audit log touches only the most recently
created unconsumed record matching the approval's contract, target and
exact amount: writing the log as `pre ++ r :: post` where `r` matches
and nothing in the (newer) `post` matches, exactly `r` is marked
`approval_pending` with a back-link and its `requestId` is returned,
all other records (including older matches in `pre`) left unchanged;
when no record matches, the log is unchanged and no id is returned. -/
theorem claim_most_recent_match :
    (∀ (contractAddr : String) (approval : PendingApproval) (now : String)
        (records : List RequestAuditRecord),
      (∀ r ∈ records, auditMatches contractAddr approval r = false) →
      claimMatchingRequestId contractAddr records approval now = (records, none)) ∧
    (∀ (contractAddr : String) (approval : PendingApproval) (now : String)
        (pre post : List RequestAuditRecord) (r : RequestAuditRecord),
      auditMatches contractAddr approval r = true →
      (∀ x ∈ post, auditMatches contractAddr approval x = false) →
      claimMatchingRequestId contractAddr (pre ++ r :: post) approval now =
        (pre ++ markClaimed approval.id now r :: post, some r.requestId)) := by
  constructor
  · intro ca approval now records h
    exact claimGo_of_nomatch h
  · intro ca approval now pre post r hr hpost
    unfold claimMatchingRequestId
    induction pre with
    | nil =>
      simp only [List.nil_append]
      have hrest := @claimGo_of_nomatch ca approval now post hpost
      simp [claimGo, hrest, hr]
    | cons p pre' ih =>
      simp only [List.cons_append]
      simp [claimGo, ih]

/-- C8 witness: two matching unconsumed records; the claim consumes the
most recently created one only and returns its request id, leaving the
older one untouched. -/
theorem claim_most_recent_witness :
    auditMatches "C" APPR (AR "req-2" "t1") = true ∧
    claimMatchingRequestId "C" [AR "req-1" "t0", AR "req-2" "t1"] APPR "tn" =
      ([AR "req-1" "t0", markClaimed APPR.id "tn" (AR "req-2" "t1")], some "req-2") :=
  ⟨by decide, by
    have h := claim_most_recent_match.2 "C" APPR "tn" [AR "req-1" "t0"] [] (AR "req-2" "t1")
      (by decide) (fun x hx => absurd hx (List.not_mem_nil x))
    simpa using h⟩

/-- C9: transaction processing is idempotent per content hash — a
transaction whose hash is in the seen set is skipped entirely; a poll
cycle marks every polled transaction seen; hence re-processing the same
transaction in a later poll cycle is a complete no-op; and even with the
seen set lost, a transaction whose derived approval id already has a
record produces no new record and no second notification. -/
theorem dedup_idempotent_notification :
    (∀ (ca : String) (st : MonState) (tx : ChainTransaction) (now : String),
      tx.hashHex ∈ st.seenTransactions → processTx ca st tx now = st) ∧
    (∀ (ca : String) (st : MonState) (txs : List ChainTransaction) (now : String)
        (tx : ChainTransaction), tx ∈ txs →
      tx.hashHex ∈ (pollCycle ca st txs now).seenTransactions) ∧
    (∀ (ca : String) (st : MonState) (tx : ChainTransaction) (now1 now2 : String),
      processTx ca (pollCycle ca st [tx] now1) tx now2 = pollCycle ca st [tx] now1) ∧
    (∀ (ca : String) (st : MonState) (tx : ChainTransaction) (now : String)
        (approval : PendingApproval),
      parseApprovalFromTransaction st.seenTransactions tx = some approval →
      (alookup st.approvalRecords approval.id).isSome = true →
      (processTx ca st tx now).sentNotifications = st.sentNotifications ∧
      (processTx ca st tx now).approvalRecords = st.approvalRecords) := by
  refine ⟨?_, ?_, ?_, ?_⟩
  · intro ca st tx now h
    exact processTx_of_seen h
  · intro ca st txs now tx h
    exact pollCycle_seen h
  · intro ca st tx now1 now2
    exact processTx_of_seen (pollCycle_seen (by simp))
  · intro ca st tx now approval hp hsome
    unfold processTx
    rw [hp]
    exact notify_existing hsome

/-- C9 witness: after one poll cycle over `TX1`, its hash is seen and a
second processing of `TX1` is a no-op. -/
theorem dedup_idempotent_witness :
    TX1.hashHex ∈ (pollCycle "C" stB [TX1] "t0").seenTransactions ∧
    processTx "C" (pollCycle "C" stB [TX1] "t0") TX1 "t9" = pollCycle "C" stB [TX1] "t0" := by
  have hseen := dedup_idempotent_notification.2.1 "C" stB [TX1] "t0" TX1 (by simp)
  exact ⟨hseen, dedup_idempotent_notification.1 "C" _ TX1 "t9" hseen⟩

/-- C10 witness: a body with `accepted` a string and absent overrides
yields the fallback decision in one call. -/
theorem accepted_defaults_true_witness :
    strTrim cfg0.url ≠ "" ∧
    requestFacilitatorDecision (fun _ => .ok { accepted := .jstr "yes" }) inp0 cfg0 =
      (.ok (some { targetAddress := "T", amountInTon := "1", reference := none, note := none }),
       1, []) :=
  ⟨by decide,
    accepted_defaults_true.2 (fun _ => .ok { accepted := .jstr "yes" }) inp0 cfg0
      { accepted := .jstr "yes" }
      { targetAddress := "T", amountInTon := "1", reference := none, note := none }
      (by decide) (fun _ => rfl)
      (accepted_defaults_true.1 inp0 { accepted := .jstr "yes" }
        (fun b h => by simp at h) rfl rfl)⟩

end TonPay
